import Mathlib

/-!
Verification of the `sidus` star-catalog converter (`src/sidus.cpp`).

The development shallowly embeds the decoder: the endian-aware integer
extraction (`parse` overloads), header decoding (`parseHeader`), record
decoding (`parseStar`), the filtering/ordering pipeline and the field-level
view of the serializer (`print`), plus the identifier sanitizer
(`sanitizeForC`).  Machine integers are modelled as `Int`/`Nat` with
explicit two's-complement reduction; IEEE-754 doubles are carried as their
raw 64-bit patterns (no claim needs their numeric value, only equality with
zero and the ordering, which are modelled on the bit patterns).
-/

deriving instance DecidableEq for Except

namespace Sidus

/-- A byte of the input buffer.  Buffers are `List Nat`; every access
reduces mod 256, mirroring the `unsigned char` reads of the C code. -/
def byteAt (data : List Nat) (i : Nat) : Nat := data.getD i 0 % 256

/-- Compose two bytes per the given byte order (`parse(int16_t*, ...)`). -/
def readU16 (data : List Nat) (i : Nat) (le : Bool) : Nat :=
  if le then byteAt data i + 256 * byteAt data (i + 1)
  else byteAt data (i + 1) + 256 * byteAt data i

/-- Two's-complement reinterpretation of a 16-bit pattern, as the C
assignment into `std::int16_t` behaves on the target platforms. -/
def toSigned16 (u : Nat) : Int :=
  if u < 2 ^ 15 then (u : Int) else (u : Int) - 2 ^ 16

def readI16 (data : List Nat) (i : Nat) (le : Bool) : Int :=
  toSigned16 (readU16 data i le)

/-- Compose four bytes per the given byte order (`parse(int32_t*, ...)`,
and the bit-assembly half of `parse(float*, ...)`). -/
def readU32 (data : List Nat) (i : Nat) (le : Bool) : Nat :=
  if le then
    byteAt data i + 256 * byteAt data (i + 1) + 65536 * byteAt data (i + 2) +
      16777216 * byteAt data (i + 3)
  else
    byteAt data (i + 3) + 256 * byteAt data (i + 2) + 65536 * byteAt data (i + 1) +
      16777216 * byteAt data i

/-- Two's-complement reinterpretation of a 32-bit pattern. -/
def toSigned32 (u : Nat) : Int :=
  if u < 2 ^ 31 then (u : Int) else (u : Int) - 2 ^ 32

def readI32 (data : List Nat) (i : Nat) (le : Bool) : Int :=
  toSigned32 (readU32 data i le)

/-- Compose eight bytes per the given byte order; the result is the raw
IEEE-754 bit pattern that `parse(double*, ...)` memcpy-reinterprets. -/
def readU64 (data : List Nat) (i : Nat) (le : Bool) : Nat :=
  if le then
    byteAt data i + 2 ^ 8 * byteAt data (i + 1) + 2 ^ 16 * byteAt data (i + 2) +
      2 ^ 24 * byteAt data (i + 3) + 2 ^ 32 * byteAt data (i + 4) +
      2 ^ 40 * byteAt data (i + 5) + 2 ^ 48 * byteAt data (i + 6) +
      2 ^ 56 * byteAt data (i + 7)
  else
    byteAt data (i + 7) + 2 ^ 8 * byteAt data (i + 6) + 2 ^ 16 * byteAt data (i + 5) +
      2 ^ 24 * byteAt data (i + 4) + 2 ^ 32 * byteAt data (i + 3) +
      2 ^ 40 * byteAt data (i + 2) + 2 ^ 48 * byteAt data (i + 1) +
      2 ^ 56 * byteAt data i

inductive Epoch where
  | AUTO
  | J2000
  | B1950
deriving DecidableEq, Repr

inductive Endian where
  | AUTO
  | LITTLE
  | BIG
deriving DecidableEq, Repr

/-- `struct Header` of sidus.cpp.  The C `StarId` and `ProperMotion` enums
are kept as their underlying `int` values (`NO_STAR_ID = 0`,
`CATALOG_STAR_ID = 1`, `GSC_STAR_ID = 2`, `TYCHO_STAR_ID = 3`,
`INTEGER_STAR_ID = 4`; `NO_PROPER_MOTION = 0`, `PROPER_MOTION = 1`,
`RADIAL_VELOCITY = 2`), because `parseHeader` stores the raw decoded value
cast into the enum without range checking. -/
structure Header where
  numStars : Int
  starId : Int
  starNameLength : Int
  properMotion : Int
  numMagnitudes : Int
  apparentMagnitude : Int
  numBytesPerStar : Int
  epoch : Epoch
  littleEndian : Bool
deriving DecidableEq, Repr

/-- The byte-order resolution at the top of `parseHeader` (reads the signed
magnitude-count field at offset 20 = 0+4+4+4+4+4).  Returns the effective
`littleEndian` flag.  Error strings follow the `fprintf(stderr, ...)`
diagnostics (minus the `sidus: ` prefix formatting of the file name). -/
def detectEndian (data : List Nat) (endian : Endian) : Except String Bool :=
  match endian with
  | Endian.AUTO =>
    if 10 < (readI32 data 20 true).natAbs then
      if 10 < (readI32 data 20 false).natAbs then
        Except.error "sidus: invalid header"
      else Except.ok false
    else Except.ok true
  | Endian.LITTLE =>
    if 10 < (readI32 data 20 true).natAbs then
      Except.error "sidus: invalid header, maybe try big-endian?"
    else Except.ok true
  | Endian.BIG =>
    if 10 < (readI32 data 20 false).natAbs then
      Except.error "sidus: invalid header, maybe try little-endian?"
    else Except.ok false

/-- `parseHeader` of sidus.cpp.  Field offsets: `starn` at 8, `stnum` at 12,
`mprop` at 16, `nmag` at 20, `nbent` at 24.  The C code leaves
`header->apparentMagnitude` unassigned (it is set by `main` after the
header checks); the model uses 0 for that field. -/
def parseHeader (data : List Nat) (epoch : Epoch) (endian : Endian) :
    Except String Header :=
  match detectEndian data endian with
  | Except.error e => Except.error e
  | Except.ok le =>
    let nmag := readI32 data 20 le
    let starn := readI32 data 8 le
    let stnum := readI32 data 12 le
    let mprop := readI32 data 16 le
    let nbent := readI32 data 24 le
    if epoch = Epoch.J2000 ∧ ¬(starn < 0 ∨ nmag < 0) then
      Except.error "sidus: expected J2000 epoch but found B1950 epoch"
    else if epoch = Epoch.B1950 ∧ (starn < 0 ∨ nmag < 0) then
      Except.error "sidus: expected B1950 epoch but found J2000 epoch"
    else
      Except.ok
        { numStars := (starn.natAbs : Int)
          starId := if stnum < 0 then 0 else stnum
          starNameLength := if stnum < 0 then -stnum else 0
          properMotion := mprop
          numMagnitudes := (nmag.natAbs : Int)
          apparentMagnitude := 0
          numBytesPerStar := nbent
          epoch := if starn < 0 ∨ nmag < 0 then Epoch.J2000 else Epoch.B1950
          littleEndian := le }

/-- `struct Star` of sidus.cpp.  `raBits`/`declBits` are the raw 64-bit
IEEE-754 patterns of `rightAscension`/`declination`; `mag` is the decoded
`int16_t` magnitude field (the C `magnitude` float is `mag / 100.0f`, an
order-preserving injective map on the int16 range, so claims about zero
tests and ordering are stated on `mag`).  `starIdBits`, `pmRaBits`,
`pmDeclBits` and `radialVelocityBits` hold the raw source bit patterns of
the corresponding fields (no claim consumes their numeric values). -/
structure Star where
  name : List Nat
  raBits : Nat
  declBits : Nat
  starIdBits : Nat
  mag : Int
  pmRaBits : Nat
  pmDeclBits : Nat
  radialVelocityBits : Nat
  spectralType0 : Nat
  spectralType1 : Nat
deriving DecidableEq, Repr

/-- Bytes consumed by the identifier field at the start of a record:
4 for `CATALOG/GSC/TYCHO/INTEGER_STAR_ID`, 0 for `NO_STAR_ID` (or any
other stored value, which falls through both branches in the C code). -/
def idFieldSize (h : Header) : Nat :=
  if h.starId = 1 ∨ h.starId = 2 ∨ h.starId = 3 then 4
  else if h.starId = 4 then 4
  else 0

/-- Bytes consumed by the proper-motion / radial-velocity block:
two float32 (8 bytes) for `PROPER_MOTION`, one float64 (8 bytes) for
`RADIAL_VELOCITY`, 0 otherwise. -/
def motionFieldSize (h : Header) : Nat :=
  if h.properMotion = 1 then 8
  else if h.properMotion = 2 then 8
  else 0

/-- Offset of the trailing name bytes inside a record: identifier, then
ra (8) + decl (8) + spectral type (2) = 18, then `2 * numMagnitudes`
magnitude bytes, then the motion block. -/
def nameOffset (h : Header) : Nat :=
  idFieldSize h + 18 + 2 * h.numMagnitudes.toNat + motionFieldSize h

/-- `parseStar` of sidus.cpp, decoding one record from the byte window
starting at the record's base.  The magnitude loop advances the cursor by
2 per magnitude and reads only the iteration with `i ==
header.apparentMagnitude`; if that index is outside `[0, numMagnitudes)`
the C variable stays uninitialized, modelled as 0 (main always assigns an
in-range index first).  The name follows `strncpy` + `std::string(char*)`
semantics: bytes are copied up to the declared length but the string stops
at the first NUL byte. -/
def parseStar (h : Header) (data : List Nat) : Star :=
  let le := h.littleEndian
  let idSz := idFieldSize h
  { name :=
      if 0 < h.starNameLength then
        (((data.drop (nameOffset h)).take h.starNameLength.toNat).map
          (fun b => b % 256)).takeWhile (fun b => b != 0)
      else []
    raBits := readU64 data idSz le
    declBits := readU64 data (idSz + 8) le
    starIdBits := if idSz = 4 then readU32 data 0 le else 0
    mag :=
      if 0 ≤ h.apparentMagnitude ∧ h.apparentMagnitude < h.numMagnitudes then
        readI16 data (idSz + 18 + 2 * h.apparentMagnitude.toNat) le
      else 0
    pmRaBits := if h.properMotion = 1 then readU32 data (idSz + 18 + 2 * h.numMagnitudes.toNat) le else 0
    pmDeclBits := if h.properMotion = 1 then readU32 data (idSz + 18 + 2 * h.numMagnitudes.toNat + 4) le else 0
    radialVelocityBits := if h.properMotion = 2 then readU64 data (idSz + 18 + 2 * h.numMagnitudes.toNat) le else 0
    spectralType0 := byteAt data (idSz + 16)
    spectralType1 := byteAt data (idSz + 17) }

/-- ASCII `tolower` in the default C locale. -/
def tolowerC (c : Nat) : Nat :=
  if 65 ≤ c ∧ c ≤ 90 then c + 32 else c

/-- ASCII `isalpha` in the default C locale. -/
def isalphaC (c : Nat) : Bool :=
  decide ((65 ≤ c ∧ c ≤ 90) ∨ (97 ≤ c ∧ c ≤ 122))

/-- ASCII `isalnum` in the default C locale. -/
def isalnumC (c : Nat) : Bool :=
  isalphaC c || decide (48 ≤ c ∧ c ≤ 57)

/-- First-position step of `sanitizeForC`: lower-case, keep if alphabetic,
otherwise substitute `x` (ASCII 120). -/
def sanitizeFirst (c : Nat) : Nat :=
  if isalphaC (tolowerC c) then tolowerC c else 120

/-- Later-position step of `sanitizeForC`: lower-case, keep if
alphanumeric, otherwise substitute `_` (ASCII 95). -/
def sanitizeRest (c : Nat) : Nat :=
  if isalnumC (tolowerC c) then tolowerC c else 95

/-- `sanitizeForC` of sidus.cpp over the NUL-free byte string of the input
file name. -/
def sanitizeForC : List Nat → List Nat
  | [] => []
  | c :: t => sanitizeFirst c :: t.map sanitizeRest

/-- IEEE-754 `== 0.0` on a raw 64-bit pattern: only `+0.0` and `-0.0`
compare equal to zero (NaN compares unequal, every other pattern denotes a
nonzero value). -/
def zero64 (b : Nat) : Bool := b == 0 || b == 2 ^ 63

/-- A strictly monotone integer key for the IEEE-754 `<` order on non-NaN
64-bit patterns: non-negative patterns ascend with their bits, negative
patterns descend, and `+0.0`/`-0.0` both map to 0.  NaN patterns (where
the C++ `std::multimap<double, Star>` comparator ceases to be a strict
weak order, hence undefined behavior) are mapped past the infinities. -/
def f64OrderKey (b : Nat) : Int :=
  if b < 2 ^ 63 then (b : Int) else -((b - 2 ^ 63 : Nat) : Int)

inductive SortMode where
  | NO
  | MAG
  | RA
deriving DecidableEq, Repr

/-- The all-zero padding-entry test of `main` (lines 782-784):
`magnitude == 0.0 && rightAscension == 0.0 && declination == 0.0`.  The
magnitude float `mag / 100.0f` is zero exactly when the int16 `mag` is. -/
def allZeroStar (s : Star) : Bool :=
  s.mag == 0 && zero64 s.raBits && zero64 s.declBits

/-- Survival of one record through the two `continue` filters of the main
loop: dropped when `magnitude > filterMagnitude` or when all-zero.  The
threshold compare is the source's `mag / 100 > q` over the rationals
(the float rounding of `mag / 100.0f` is monotone and injective on the
int16 range, so the set of representable thresholds is unchanged); it is
written as the equivalent integer cross-multiplication so that it
evaluates by kernel reduction — `keepStar_iff_source` proves the two
forms equal. -/
def keepStar (q : ℚ) (s : Star) : Bool :=
  !(decide (q.num * 100 < s.mag * q.den)) && !(allZeroStar s)

/-- Sort key inserted into the `std::multimap<double, Star>`: the original
record index for no sorting, `star.magnitude` for `-m` (order-isomorphic
to the int16 `mag`), `star.rightAscension` for `-r` (modelled by
`f64OrderKey`). -/
def sortKey (mode : SortMode) (p : Nat × Star) : Int :=
  match mode with
  | SortMode.NO => (p.1 : Int)
  | SortMode.MAG => p.2.mag
  | SortMode.RA => f64OrderKey p.2.raBits

/-- `std::multimap::insert` on an association list sorted by key: the new
pair goes at the upper bound of its equal-key range (C++11 guarantees this
position), i.e. after every existing pair with key `≤ k`. -/
def mmInsert {α : Type} (k : Int) (b : α) : List (Int × α) → List (Int × α)
  | [] => [(k, b)]
  | x :: t => if k < x.1 then (k, b) :: x :: t else x :: mmInsert k b t

/-- Inserting every element of `l`, in order, into an initially empty
multimap keyed by `key`. -/
def buildMap {α : Type} (key : α → Int) (l : List α) : List (Int × α) :=
  l.foldl (fun m b => mmInsert (key b) b m) []

/-- The ordered record sequence read back out of the multimap (iteration
of `std::multimap` is in ascending key order, insertion order within equal
keys). -/
def orderStars (recs : List (Nat × Star)) (mode : SortMode) : List (Nat × Star) :=
  (buildMap (sortKey mode) recs).map Prod.snd

/-- The record-decoding loop of `main`: records start at byte 28 and are
spaced `numBytesPerStar` apart, each paired with its original index. -/
def decodeAll (h : Header) (data : List Nat) : List (Nat × Star) :=
  (List.range h.numStars.toNat).map
    (fun i => (i, parseStar h (data.drop ((28 + (i : Int) * h.numBytesPerStar).toNat))))

/-- Decode, filter and order: the full record pipeline of `main`. -/
def pipelineStars (h : Header) (data : List Nat) (q : ℚ) (mode : SortMode) :
    List (Nat × Star) :=
  orderStars ((decodeAll h data).filter (fun p => keepStar q p.2)) mode

/-- One serialized field of an output record, as emitted by `print`.
Formatting (precision, separators) is abstracted away; the constructors
record which value is emitted. -/
inductive OutField where
  | nameF : List Nat → OutField
  | raF : Nat → OutField
  | decF : Nat → OutField
  | magF : Int → OutField
  | typeF : Nat → Nat → OutField
deriving DecidableEq, Repr

/-- The fields emitted by `print` for one star, in emission order: C-header
mode prints `{ ra, decl, magnitude`, then the optional name and spectral
type; CSV mode prints the optional name first, then `ra, decl, magnitude`
and the optional spectral type. -/
def printFields (s : Star) (cformat usename usetype : Bool) : List OutField :=
  if cformat then
    [OutField.raF s.raBits, OutField.decF s.declBits, OutField.magF s.mag] ++
      (if usename then [OutField.nameF s.name] else []) ++
      (if usetype then [OutField.typeF s.spectralType0 s.spectralType1] else [])
  else
    (if usename then [OutField.nameF s.name] else []) ++
      [OutField.raF s.raBits, OutField.decF s.declBits, OutField.magF s.mag] ++
      (if usetype then [OutField.typeF s.spectralType0 s.spectralType1] else [])

/-- Recognizer for the name field of a serialized record. -/
def isNameField : OutField → Bool
  | OutField.nameF _ => true
  | _ => false

/-- Line 737 of sidus.cpp: `header.apparentMagnitude =
std::min(header.numMagnitudes - 1, header.numMagnitudes);` — the parsed
`-a` selector is not consulted. -/
def resolveApparentIndex (numMagnitudes : Int) : Int :=
  min (numMagnitudes - 1) numMagnitudes

/-- The resolved options `main` threads into the core (CLI parsing is an
external collaborator).  `apparentMagnitude` is the `-a` selector,
`filterMagnitude` the `-f` threshold (default `DBL_MAX`, i.e. larger than
any representable magnitude). -/
structure RunOpts where
  apparentMagnitude : Int
  filterMagnitude : ℚ
  epochHint : Epoch
  endianHint : Endian
  cformat : Bool
  usefloat : Bool
  onlymeta : Bool
  sortMode : SortMode
  usename : Bool
  usetype : Bool

/-- Result of a successful run: the `-i` header summary, or the serialized
record lines. -/
inductive RunOutput where
  | meta : Header → RunOutput
  | records : List (List OutField) → RunOutput
deriving DecidableEq, Repr

/-- `main` of sidus.cpp from the point where the buffer has been read
(lines 703-812): size checks, header decoding, the
`28 + numStars * numBytesPerStar <= filesize` cross-check (the right-hand
side is an `int` converted to `size_t` for the comparison, modelled by the
reduction mod `2 ^ 64`), the `numMagnitudes >= 1` check, the forced
apparent-magnitude index, the clearing of `-n` for id-carrying catalogs,
the `-i` short-circuit, and the decode/filter/order/print pipeline. -/
def sidusRun (data : List Nat) (o : RunOpts) : Except String RunOutput :=
  if data.length = 0 then Except.error "sidus: empty"
  else if data.length < 28 then Except.error "sidus: no header"
  else
    match parseHeader data o.epochHint o.endianHint with
    | Except.error e => Except.error e
    | Except.ok h0 =>
      if (data.length : Int) < (28 + h0.numStars * h0.numBytesPerStar) % (2 ^ 64 : Int) then
        Except.error "sidus: file too short"
      else if h0.numMagnitudes < 1 then
        Except.error "sidus: expected at least one magnitude per star"
      else
        let h := { h0 with apparentMagnitude := resolveApparentIndex h0.numMagnitudes }
        let usename := if h.starNameLength = 0 then false else o.usename
        if o.onlymeta then Except.ok (RunOutput.meta h)
        else
          Except.ok (RunOutput.records
            ((pipelineStars h data o.filterMagnitude o.sortMode).map
              (fun p => printFields p.2 o.cformat usename o.usetype)))

/-- Little- or big-endian encoding of a 32-bit unsigned value, the
mathematical section of `readU32`; used to build the synthetic header
fixtures of the testable properties. -/
def encodeU32 (le : Bool) (u : Nat) : List Nat :=
  if le then [u % 256, u / 256 % 256, u / 65536 % 256, u / 16777216 % 256]
  else [u / 16777216 % 256, u / 65536 % 256, u / 256 % 256, u % 256]

/-- Two's-complement 32-bit pattern of a signed value. -/
def toU32 (v : Int) : Nat := (v % (2 ^ 32 : Int)).toNat

/-- Encoding of a signed 32-bit value in the given byte order. -/
def encodeI32 (le : Bool) (v : Int) : List Nat := encodeU32 le (toU32 v)

/-- A synthetic 28-byte catalog header with the given signed field values,
encoded in the given byte order (offsets 0 and 4 are reserved). -/
def mkHeader (le : Bool) (starn stnum mprop nmag nbent : Int) : List Nat :=
  encodeI32 le 0 ++ encodeI32 le 0 ++ encodeI32 le starn ++ encodeI32 le stnum ++
    encodeI32 le mprop ++ encodeI32 le nmag ++ encodeI32 le nbent

/-- The order of the multimap's contents: strictly ascending key, with
ties resolved by a relation `R` on the values (instantiated with the
original record-index order to express stability). -/
def lexP {α : Type} (R : α → α → Prop) (x y : Int × α) : Prop :=
  x.1 < y.1 ∨ (x.1 = y.1 ∧ R x.2 y.2)

/-! ## Basic range facts about the byte readers -/

theorem byteAt_lt (data : List Nat) (i : Nat) : byteAt data i < 256 :=
  Nat.mod_lt _ (by omega)

theorem readU32_lt (data : List Nat) (i : Nat) (le : Bool) :
    readU32 data i le < 2 ^ 32 := by
  have h0 := byteAt_lt data i
  have h1 := byteAt_lt data (i + 1)
  have h2 := byteAt_lt data (i + 2)
  have h3 := byteAt_lt data (i + 3)
  unfold readU32
  split <;> omega

theorem readI32_bounds (data : List Nat) (i : Nat) (le : Bool) :
    -(2 ^ 31) ≤ readI32 data i le ∧ readI32 data i le < 2 ^ 31 := by
  have h := readU32_lt data i le
  unfold readI32 toSigned32
  split <;> omega

theorem toU32_lt (v : Int) : toU32 v < 2 ^ 32 := by
  unfold toU32
  omega

theorem toSigned32_toU32 (v : Int) (hlo : -(2 ^ 31) ≤ v) (hhi : v < 2 ^ 31) :
    toSigned32 (toU32 v) = v := by
  unfold toSigned32 toU32
  split <;> omega

/-- Decoding the four bytes produced by `encodeI32` recovers the encoded
value: `encodeI32` is a section of `readI32` for in-range values. -/
theorem readI32_of_encode (data : List Nat) (i : Nat) (le : Bool) (v : Int)
    (hlo : -(2 ^ 31) ≤ v) (hhi : v < 2 ^ 31)
    (hb : [byteAt data i, byteAt data (i + 1), byteAt data (i + 2), byteAt data (i + 3)] =
      encodeI32 le v) :
    readI32 data i le = v := by
  have hu := toU32_lt v
  cases le with
  | false =>
    obtain ⟨h0, h1, h2, h3⟩ : byteAt data i = toU32 v / 16777216 % 256 ∧
        byteAt data (i + 1) = toU32 v / 65536 % 256 ∧
        byteAt data (i + 2) = toU32 v / 256 % 256 ∧
        byteAt data (i + 3) = toU32 v % 256 := by
      simpa [encodeI32, encodeU32] using hb
    have hr : readU32 data i false = toU32 v := by
      simp only [readU32, Bool.false_eq_true, if_false, h0, h1, h2, h3]
      omega
    rw [readI32, hr]
    exact toSigned32_toU32 v hlo hhi
  | true =>
    obtain ⟨h0, h1, h2, h3⟩ : byteAt data i = toU32 v % 256 ∧
        byteAt data (i + 1) = toU32 v / 256 % 256 ∧
        byteAt data (i + 2) = toU32 v / 65536 % 256 ∧
        byteAt data (i + 3) = toU32 v / 16777216 % 256 := by
      simpa [encodeI32, encodeU32] using hb
    have hr : readU32 data i true = toU32 v := by
      simp only [readU32, if_true, h0, h1, h2, h3]
      omega
    rw [readI32, hr]
    exact toSigned32_toU32 v hlo hhi

/-- The integer cross-multiplied comparison used by `keepStar` is exactly
the source's `star.magnitude > filterMagnitude`, i.e. `mag / 100 > q`. -/
theorem magExceeds_iff (mag : Int) (q : ℚ) :
    ((mag : ℚ) / 100 > q) ↔ q.num * 100 < mag * q.den := by
  rw [gt_iff_lt]
  conv_lhs => rw [show q = (q.num : ℚ) / (q.den : ℚ) from (Rat.num_div_den q).symm]
  rw [div_lt_div_iff₀ (by exact_mod_cast q.pos) (by norm_num)]
  exact_mod_cast Iff.rfl

theorem keepStar_iff_source (q : ℚ) (s : Star) :
    keepStar q s = (!(decide ((s.mag : ℚ) / 100 > q)) && !(allZeroStar s)) := by
  unfold keepStar
  rw [decide_eq_decide.mpr (magExceeds_iff s.mag q).symm]

/-! ## Sanitizer lemmas (claim C9) -/

theorem tolowerC_eq (c : Nat) : tolowerC c = if 65 ≤ c ∧ c ≤ 90 then c + 32 else c := rfl

theorem tolowerC_idem (c : Nat) : tolowerC (tolowerC c) = tolowerC c := by
  by_cases h : 65 ≤ c ∧ c ≤ 90
  · rw [tolowerC_eq c, if_pos h, tolowerC_eq (c + 32), if_neg (by omega)]
  · rw [tolowerC_eq c, if_neg h, tolowerC_eq c, if_neg h]

theorem sanitizeFirst_eq (c : Nat) :
    sanitizeFirst c = if isalphaC (tolowerC c) = true then tolowerC c else 120 := rfl

theorem sanitizeRest_eq (c : Nat) :
    sanitizeRest c = if isalnumC (tolowerC c) = true then tolowerC c else 95 := rfl

theorem isalphaC_sanitizeFirst (c : Nat) : isalphaC (sanitizeFirst c) = true := by
  rw [sanitizeFirst_eq]
  by_cases h : isalphaC (tolowerC c) = true
  · rw [if_pos h]; exact h
  · rw [if_neg h]; decide

theorem sanitizeFirst_idem (c : Nat) : sanitizeFirst (sanitizeFirst c) = sanitizeFirst c := by
  by_cases h : isalphaC (tolowerC c) = true
  · rw [sanitizeFirst_eq c, if_pos h, sanitizeFirst_eq (tolowerC c), tolowerC_idem, if_pos h]
  · rw [sanitizeFirst_eq c, if_neg h]; decide

theorem isalnumC_or_underscore_sanitizeRest (c : Nat) :
    isalnumC (sanitizeRest c) = true ∨ sanitizeRest c = 95 := by
  rw [sanitizeRest_eq]
  by_cases h : isalnumC (tolowerC c) = true
  · left; rw [if_pos h]; exact h
  · right; rw [if_neg h]

theorem sanitizeRest_idem (c : Nat) : sanitizeRest (sanitizeRest c) = sanitizeRest c := by
  by_cases h : isalnumC (tolowerC c) = true
  · rw [sanitizeRest_eq c, if_pos h, sanitizeRest_eq (tolowerC c), tolowerC_idem, if_pos h]
  · rw [sanitizeRest_eq c, if_neg h]; decide

/-- C9: the claim as stated is refuted by the empty input string: its
sanitized form is empty, so it does not start with an alphabetic
character (and is not a valid C identifier). -/
theorem c9_counterexample :
    sanitizeForC [] = [] ∧ isalphaC ((sanitizeForC []).headD 0) = false := by
  constructor
  · rfl
  · rfl

/-- C9 (amended): for every nonempty input string, `sanitizeForC` produces
an output starting with an alphabetic character whose remaining characters
are alphanumerics or underscores, and sanitizing twice equals sanitizing
once (idempotence holds for all inputs, the empty one included). -/
theorem c9_sanitizer_shape_idempotent (s : List Nat) :
    (s ≠ [] →
      isalphaC ((sanitizeForC s).headD 0) = true ∧
      ∀ b ∈ (sanitizeForC s).tail, isalnumC b = true ∨ b = 95) ∧
    sanitizeForC (sanitizeForC s) = sanitizeForC s := by
  cases s with
  | nil => exact ⟨fun h => absurd rfl h, rfl⟩
  | cons c t =>
    refine ⟨fun _ => ⟨isalphaC_sanitizeFirst c, ?_⟩, ?_⟩
    · intro b hb
      simp only [sanitizeForC, List.tail_cons, List.mem_map] at hb
      obtain ⟨a, _, rfl⟩ := hb
      exact isalnumC_or_underscore_sanitizeRest a
    · simp only [sanitizeForC, sanitizeFirst_idem, List.map_map, List.cons.injEq, true_and]
      exact List.map_congr_left (fun a _ => sanitizeRest_idem a)

/-- C9 witness: the amended theorem instantiated at the concrete input
"9-A" (bytes 57, 45, 65), whose sanitized form is "x_a". -/
theorem c9_witness :
    (isalphaC ((sanitizeForC [57, 45, 65]).headD 0) = true ∧
      ∀ b ∈ (sanitizeForC [57, 45, 65]).tail, isalnumC b = true ∨ b = 95) ∧
    sanitizeForC (sanitizeForC [57, 45, 65]) = sanitizeForC [57, 45, 65] :=
  ⟨(c9_sanitizer_shape_idempotent [57, 45, 65]).1 (by decide),
    (c9_sanitizer_shape_idempotent [57, 45, 65]).2⟩

/-! ## Header decoding claims (C2, C3, C4) -/

/-- C2: the claim is refuted by a concrete header whose id-spec field is 7
(outside the 1-4 enum range) and whose motion flag is 5 (outside 0/1/2):
`parseHeader` succeeds and stores both raw values cast into the enum
fields, producing decoded output. -/
theorem c2_counterexample :
    parseHeader (mkHeader true 1 7 5 1 23) Epoch.AUTO Endian.AUTO =
      Except.ok
        { numStars := 1, starId := 7, starNameLength := 0, properMotion := 5,
          numMagnitudes := 1, apparentMagnitude := 0, numBytesPerStar := 23,
          epoch := Epoch.B1950, littleEndian := true } := by
  rfl

/-- C2 (amended): header decoding performs no range validation on the
id-spec or motion-flag fields.  With an Auto epoch hint it succeeds exactly
when byte-order detection succeeds, and the decoded header stores the raw
id-spec value (0 substituted when negative) and the raw motion value
unchanged, whatever they are. -/
theorem c2_no_enum_validation (data : List Nat) (en : Endian) :
    ((parseHeader data Epoch.AUTO en).isOk = (detectEndian data en).isOk) ∧
    (∀ h, parseHeader data Epoch.AUTO en = Except.ok h →
      h.starId = (if readI32 data 12 h.littleEndian < 0 then 0
                  else readI32 data 12 h.littleEndian) ∧
      h.properMotion = readI32 data 16 h.littleEndian) := by
  unfold parseHeader
  cases hd : detectEndian data en with
  | error e => exact ⟨rfl, fun h hh => by cases hh⟩
  | ok le =>
    constructor
    · simp [Except.isOk, Except.toBool]
    · intro h hh
      dsimp only at hh
      rw [if_neg (by simp), if_neg (by simp)] at hh
      injection hh with hh
      subst hh
      exact ⟨rfl, rfl⟩

/-- C2 witness: the amended theorem instantiated at the concrete header of
the counterexample (id-spec 7, motion flag 5). -/
theorem c2_witness :
    ((parseHeader (mkHeader true 1 7 5 1 23) Epoch.AUTO Endian.AUTO).isOk =
      (detectEndian (mkHeader true 1 7 5 1 23) Endian.AUTO).isOk) ∧
    ({ numStars := 1, starId := 7, starNameLength := 0, properMotion := 5,
       numMagnitudes := 1, apparentMagnitude := 0, numBytesPerStar := 23,
       epoch := Epoch.B1950, littleEndian := true : Header }.starId =
        (if readI32 (mkHeader true 1 7 5 1 23) 12 true < 0 then 0
         else readI32 (mkHeader true 1 7 5 1 23) 12 true)) ∧
    ({ numStars := 1, starId := 7, starNameLength := 0, properMotion := 5,
       numMagnitudes := 1, apparentMagnitude := 0, numBytesPerStar := 23,
       epoch := Epoch.B1950, littleEndian := true : Header }.properMotion =
        readI32 (mkHeader true 1 7 5 1 23) 16 true) := by
  refine ⟨(c2_no_enum_validation (mkHeader true 1 7 5 1 23) Endian.AUTO).1, ?_, ?_⟩
  · exact ((c2_no_enum_validation (mkHeader true 1 7 5 1 23) Endian.AUTO).2 _ (by rfl)).1
  · exact ((c2_no_enum_validation (mkHeader true 1 7 5 1 23) Endian.AUTO).2 _ (by rfl)).2

/-- C3: the claim is refuted by the magnitude-count value -1 encoded
big-endian: its bytes are FF FF FF FF, the little-endian probe also reads
-1 with absolute value at most 10, and Auto detection therefore adopts
little-endian — not the byte order the header was encoded in. -/
theorem c3_counterexample :
    encodeI32 false (-1) = [255, 255, 255, 255] ∧
    ((-1 : Int).natAbs ≤ 10) ∧
    detectEndian (mkHeader false 1 0 0 (-1) 23) Endian.AUTO = Except.ok true := by
  refine ⟨by decide, by decide, by rfl⟩

/-- C3 (amended): with an Auto endianness hint, a header whose offset-20
field is the little-endian encoding of a value with absolute value at most
10 is detected as little-endian; one encoded big-endian is detected as
big-endian provided the little-endian misreading of those bytes exceeds 10
in absolute value (the proviso fails only for the byte-palindromic values
0 and -1, where little-endian wins); and when both byte-order readings
exceed 10 in absolute value, detection fails (AmbiguousFormat). -/
theorem c3_auto_detection (data : List Nat) (v : Int)
    (hlo : -(2 ^ 31) ≤ v) (hhi : v < 2 ^ 31) (hv : v.natAbs ≤ 10) :
    ([byteAt data 20, byteAt data 21, byteAt data 22, byteAt data 23] =
        encodeI32 true v →
      detectEndian data Endian.AUTO = Except.ok true) ∧
    ([byteAt data 20, byteAt data 21, byteAt data 22, byteAt data 23] =
        encodeI32 false v →
      10 < (readI32 data 20 true).natAbs →
      detectEndian data Endian.AUTO = Except.ok false) ∧
    (10 < (readI32 data 20 true).natAbs → 10 < (readI32 data 20 false).natAbs →
      detectEndian data Endian.AUTO = Except.error "sidus: invalid header") := by
  refine ⟨?_, ?_, ?_⟩
  · intro hb
    have hle : readI32 data 20 true = v := readI32_of_encode data 20 true v hlo hhi hb
    unfold detectEndian
    rw [hle, if_neg (by omega)]
  · intro hb hmis
    have hbe : readI32 data 20 false = v := readI32_of_encode data 20 false v hlo hhi hb
    unfold detectEndian
    rw [if_pos hmis, hbe, if_neg (by omega)]
  · intro h1 h2
    unfold detectEndian
    rw [if_pos h1, if_pos h2]

/-- C3 witness: the amended theorem at the value 3 — encoded little-endian
it is detected little-endian; encoded big-endian its bytes 00 00 00 03 read
as 50331648 little-endian, so detection correctly falls through to
big-endian. -/
theorem c3_witness :
    detectEndian (mkHeader true 1 0 0 3 23) Endian.AUTO = Except.ok true ∧
    detectEndian (mkHeader false 1 0 0 3 23) Endian.AUTO = Except.ok false := by
  constructor
  · exact (c3_auto_detection (mkHeader true 1 0 0 3 23) 3 (by decide) (by decide)
      (by decide)).1 (by decide)
  · exact (c3_auto_detection (mkHeader false 1 0 0 3 23) 3 (by decide) (by decide)
      (by decide)).2.1 (by decide) (by decide)

/-- C4: a header decoded with an Auto epoch hint derives J2000 exactly when
the signed star-count field (offset 8) or the signed magnitude-count field
(offset 20) is negative — either sign alone suffices — and B1950
otherwise; and decoding the same bytes with a J2000 or B1950 hint that
disagrees with the derived epoch fails with the epoch-mismatch error. -/
theorem c4_epoch_sign_and_hint (data : List Nat) (en : Endian) (h : Header)
    (hok : parseHeader data Epoch.AUTO en = Except.ok h) :
    (h.epoch = Epoch.J2000 ↔
      (readI32 data 8 h.littleEndian < 0 ∨ readI32 data 20 h.littleEndian < 0)) ∧
    (parseHeader data Epoch.J2000 en =
      if h.epoch = Epoch.J2000 then Except.ok h
      else Except.error "sidus: expected J2000 epoch but found B1950 epoch") ∧
    (parseHeader data Epoch.B1950 en =
      if h.epoch = Epoch.B1950 then Except.ok h
      else Except.error "sidus: expected B1950 epoch but found J2000 epoch") := by
  unfold parseHeader at hok ⊢
  cases hd : detectEndian data en with
  | error e => rw [hd] at hok; cases hok
  | ok le =>
    rw [hd] at hok
    dsimp only at hok ⊢
    rw [if_neg (by simp), if_neg (by simp)] at hok
    injection hok with hok
    subst hok
    by_cases hj : readI32 data 8 le < 0 ∨ readI32 data 20 le < 0
    · exact ⟨by simp [hj], by simp [hj], by simp [hj]⟩
    · exact ⟨by simp [hj], by simp [hj], by simp [hj]⟩

/-- C4 witness: the spec's synthetic scenario (star count -2 encoded
little-endian, so the derived epoch is J2000): a B1950 hint is rejected
with the epoch-mismatch error. -/
theorem c4_witness :
    parseHeader (mkHeader true (-2) (-3) 0 1 23) Epoch.B1950 Endian.AUTO =
      Except.error "sidus: expected B1950 epoch but found J2000 epoch" := by
  have h := (c4_epoch_sign_and_hint (mkHeader true (-2) (-3) 0 1 23) Endian.AUTO
    { numStars := 2, starId := 0, starNameLength := 3, properMotion := 0,
      numMagnitudes := 1, apparentMagnitude := 0, numBytesPerStar := 23,
      epoch := Epoch.J2000, littleEndian := true } (by rfl)).2.2
  rw [if_neg (by decide)] at h
  exact h

/-! ## Record decoding claims (C8, C1) -/

theorem takeWhile_all {p : Nat → Bool} :
    ∀ l : List Nat, (∀ b ∈ l, p b = true) → l.takeWhile p = l := by
  intro l hl
  induction l with
  | nil => rfl
  | cons a t ih =>
    rw [List.takeWhile_cons, hl a (List.mem_cons_self a t)]
    exact congrArg (List.cons a) (ih (fun b hb => hl b (List.mem_cons_of_mem a hb)))

/-- C8: the claim is refuted by a record whose 3 declared name bytes are
`41 00 42`: the raw bytes at the name position are `[65, 0, 66]`, but the
decoded name is `[65]` — `strncpy` plus `std::string(char *)` truncate at
the embedded NUL terminator rather than only at the declared length. -/
theorem c8_counterexample :
    (parseStar
      { numStars := 1, starId := 0, starNameLength := 3, properMotion := 0,
        numMagnitudes := 1, apparentMagnitude := 0, numBytesPerStar := 23,
        epoch := Epoch.B1950, littleEndian := true }
      ([1, 0, 0, 0, 0, 0, 0, 0] ++ [1, 0, 0, 0, 0, 0, 0, 0] ++ [65, 66] ++
        [100, 0] ++ [65, 0, 66])).name = [65] ∧
    ((([1, 0, 0, 0, 0, 0, 0, 0] ++ [1, 0, 0, 0, 0, 0, 0, 0] ++ [65, 66] ++
        [100, 0] ++ [65, 0, 66] : List Nat).drop 20).take 3 = [65, 0, 66]) ∧
    ([65] : List Nat) ≠ [65, 0, 66] := by
  refine ⟨by rfl, by rfl, by decide⟩

/-- C8 (amended): when the header declares a positive name length, the
decoded name is the prefix of the declared raw name bytes up to (and
excluding) the first NUL byte: it never contains a NUL, it equals the full
declared bytes whenever they contain no NUL, and it is empty for headers
without a name field (`starNameLength = 0`, i.e. `idKind != None`;
`parseHeader` sets a positive `starNameLength` only when the id-spec field
is negative, which is the `idKind == None` case). -/
theorem c8_name_truncated_at_nul (h : Header) (data : List Nat) :
    (h.starNameLength ≤ 0 → (parseStar h data).name = []) ∧
    (parseStar h data).name <+:
      ((data.drop (nameOffset h)).take h.starNameLength.toNat).map (fun b => b % 256) ∧
    (∀ b ∈ (parseStar h data).name, b ≠ 0) ∧
    ((∀ b ∈ ((data.drop (nameOffset h)).take h.starNameLength.toNat).map (fun b => b % 256),
        b ≠ 0) →
      (parseStar h data).name =
        ((data.drop (nameOffset h)).take h.starNameLength.toNat).map (fun b => b % 256)) := by
  have hname : (parseStar h data).name =
      if 0 < h.starNameLength then
        (((data.drop (nameOffset h)).take h.starNameLength.toNat).map
          (fun b => b % 256)).takeWhile (fun b => b != 0)
      else [] := rfl
  by_cases hpos : 0 < h.starNameLength
  · rw [hname, if_pos hpos]
    refine ⟨fun hle => absurd hpos (by omega), List.takeWhile_prefix _, ?_, ?_⟩
    · intro b hb
      have := List.mem_takeWhile_imp hb
      simpa using this
    · intro hall
      exact takeWhile_all _ (fun b hb => by simpa using hall b hb)
  · rw [hname, if_neg hpos]
    have hraw : ((data.drop (nameOffset h)).take h.starNameLength.toNat).map
        (fun b => b % 256) = [] := by
      have : h.starNameLength.toNat = 0 := by omega
      simp [this]
    exact ⟨fun _ => rfl, by simp, by simp, fun _ => hraw.symm⟩

/-- C8 witness: a record with NUL-free name bytes "ABC" decodes to exactly
those three bytes. -/
theorem c8_witness :
    (parseStar
      { numStars := 1, starId := 0, starNameLength := 3, properMotion := 0,
        numMagnitudes := 1, apparentMagnitude := 0, numBytesPerStar := 23,
        epoch := Epoch.B1950, littleEndian := true }
      ([1, 0, 0, 0, 0, 0, 0, 0] ++ [1, 0, 0, 0, 0, 0, 0, 0] ++ [65, 66] ++
        [100, 0] ++ [65, 66, 67])).name = [65, 66, 67] := by
  have h := (c8_name_truncated_at_nul
    { numStars := 1, starId := 0, starNameLength := 3, properMotion := 0,
      numMagnitudes := 1, apparentMagnitude := 0, numBytesPerStar := 23,
      epoch := Epoch.B1950, littleEndian := true }
    ([1, 0, 0, 0, 0, 0, 0, 0] ++ [1, 0, 0, 0, 0, 0, 0, 0] ++ [65, 66] ++
      [100, 0] ++ [65, 66, 67])).2.2.2 (by decide)
  exact h.trans (by rfl)

/-- C1: the `-a` apparent-magnitude selector is parsed by `main` but never
consulted: line 737 assigns `min(numMagnitudes - 1, numMagnitudes)` — the
last magnitude index — unconditionally.  For a catalog with two magnitude
fields holding 100 (index 0) and 200 (index 1) and selector index 0, the
run emits the magnitude from index 1 (200, i.e. 2.00), not the selected
index 0 (100); the cursor still advances past both fields, so the rest of
the record decodes correctly. -/
theorem c1_selector_ignored :
    sidusRun
      (mkHeader true 1 0 0 2 22 ++ [1, 0, 0, 0, 0, 0, 0, 0] ++
        [1, 0, 0, 0, 0, 0, 0, 0] ++ [65, 66] ++ [100, 0] ++ [200, 0])
      { apparentMagnitude := 0, filterMagnitude := 1000000,
        epochHint := Epoch.AUTO, endianHint := Endian.AUTO, cformat := false,
        usefloat := false, onlymeta := false, sortMode := SortMode.NO,
        usename := false, usetype := false } =
      Except.ok (RunOutput.records
        [[OutField.raF 1, OutField.decF 1, OutField.magF 200]]) ∧
    readI16
      (mkHeader true 1 0 0 2 22 ++ [1, 0, 0, 0, 0, 0, 0, 0] ++
        [1, 0, 0, 0, 0, 0, 0, 0] ++ [65, 66] ++ [100, 0] ++ [200, 0])
      (28 + 18) true = 100 ∧
    resolveApparentIndex 2 = 1 := by
  refine ⟨by decide, by rfl, by rfl⟩

/-! ## Multimap lemmas (claims C6, C7) -/

theorem mem_mmInsert {α : Type} (k : Int) (b : α) (l : List (Int × α)) (x : Int × α) :
    x ∈ mmInsert k b l ↔ x = (k, b) ∨ x ∈ l := by
  induction l with
  | nil => simp [mmInsert]
  | cons hd t ih =>
    unfold mmInsert
    by_cases hk : k < hd.1
    · rw [if_pos hk]
      simp only [List.mem_cons]
    · rw [if_neg hk]
      simp only [List.mem_cons, ih]
      tauto

theorem pairwise_mmInsert {α : Type} (R : α → α → Prop) (k : Int) (b : α)
    (l : List (Int × α)) (hl : l.Pairwise (lexP R))
    (hb : ∀ x ∈ l, x.1 = k → R x.2 b) :
    (mmInsert k b l).Pairwise (lexP R) := by
  induction l with
  | nil => simp [mmInsert]
  | cons hd t ih =>
    rw [List.pairwise_cons] at hl
    obtain ⟨hhd, ht⟩ := hl
    unfold mmInsert
    by_cases hk : k < hd.1
    · rw [if_pos hk]
      refine List.pairwise_cons.mpr ⟨?_, List.pairwise_cons.mpr ⟨hhd, ht⟩⟩
      intro y hy
      rcases List.mem_cons.mp hy with rfl | hyt
      · exact Or.inl hk
      · rcases hhd y hyt with h1 | ⟨h1, _⟩
        · exact Or.inl (by omega)
        · exact Or.inl (by omega)
    · rw [if_neg hk]
      refine List.pairwise_cons.mpr
        ⟨?_, ih ht (fun x hx hxk => hb x (List.mem_cons_of_mem hd hx) hxk)⟩
      intro y hy
      rcases (mem_mmInsert k b t y).mp hy with rfl | hyt
      · by_cases heq : hd.1 = k
        · exact Or.inr ⟨heq, hb hd (List.mem_cons_self hd t) heq⟩
        · exact Or.inl (by omega)
      · exact hhd y hyt

theorem pairwise_buildMap_aux {α : Type} (R : α → α → Prop) (key : α → Int) :
    ∀ (l : List α) (acc : List (Int × α)),
      acc.Pairwise (lexP R) →
      (∀ x ∈ acc, ∀ b ∈ l, R x.2 b) →
      l.Pairwise R →
      (l.foldl (fun m b => mmInsert (key b) b m) acc).Pairwise (lexP R) := by
  intro l
  induction l with
  | nil =>
    intro acc h1 _ _
    simpa using h1
  | cons a t ih =>
    intro acc h1 h2 h3
    rw [List.pairwise_cons] at h3
    rw [List.foldl_cons]
    apply ih
    · exact pairwise_mmInsert R (key a) a acc h1
        (fun x hx _ => h2 x hx a (List.mem_cons_self a t))
    · intro x hx b hb
      rcases (mem_mmInsert (key a) a acc x).mp hx with rfl | hxa
      · exact h3.1 b hb
      · exact h2 x hxa b (List.mem_cons_of_mem a hb)
    · exact h3.2

theorem mem_buildMap_aux {α : Type} (key : α → Int) :
    ∀ (l : List α) (acc : List (Int × α)) (x : Int × α),
      x ∈ l.foldl (fun m b => mmInsert (key b) b m) acc →
      x ∈ acc ∨ (x.1 = key x.2 ∧ x.2 ∈ l) := by
  intro l
  induction l with
  | nil =>
    intro acc x hx
    exact Or.inl hx
  | cons a t ih =>
    intro acc x hx
    rw [List.foldl_cons] at hx
    rcases ih (mmInsert (key a) a acc) x hx with hacc | ⟨hk, hmem⟩
    · rcases (mem_mmInsert (key a) a acc x).mp hacc with rfl | hold
      · exact Or.inr ⟨rfl, List.mem_cons_self a t⟩
      · exact Or.inl hold
    · exact Or.inr ⟨hk, List.mem_cons_of_mem a hmem⟩

theorem mmInsert_append {α : Type} (k : Int) (b : α) (l : List (Int × α))
    (h : ∀ x ∈ l, ¬k < x.1) : mmInsert k b l = l ++ [(k, b)] := by
  induction l with
  | nil => rfl
  | cons hd t ih =>
    unfold mmInsert
    rw [if_neg (h hd (List.mem_cons_self hd t)),
      ih (fun x hx => h x (List.mem_cons_of_mem hd hx))]
    rfl

theorem buildMap_increasing_aux {α : Type} (key : α → Int) :
    ∀ (l : List α) (acc : List (Int × α)),
      (∀ x ∈ acc, ∀ b ∈ l, ¬key b < x.1) →
      l.Pairwise (fun a b => ¬key b < key a) →
      l.foldl (fun m b => mmInsert (key b) b m) acc =
        acc ++ l.map (fun b => (key b, b)) := by
  intro l
  induction l with
  | nil =>
    intro acc _ _
    simp
  | cons a t ih =>
    intro acc hacc hp
    rw [List.pairwise_cons] at hp
    rw [List.foldl_cons,
      mmInsert_append (key a) a acc (fun x hx => hacc x hx a (List.mem_cons_self a t)),
      ih (acc ++ [(key a, a)]) ?_ hp.2]
    · simp
    · intro x hx b hb
      rcases List.mem_append.mp hx with h | h
      · exact hacc x h b (List.mem_cons_of_mem a hb)
      · have hxa : x = (key a, a) := by simpa using h
        rw [hxa]
        exact hp.1 b hb

/-- The ordered output of the multimap stage is sorted by the chosen key
with ties in original-index order, whenever the input carries strictly
increasing original indices. -/
theorem orderStars_sorted_stable (recs : List (Nat × Star)) (mode : SortMode)
    (hinc : recs.Pairwise (fun a b => a.1 < b.1)) :
    (orderStars recs mode).Pairwise
      (fun a b => sortKey mode a < sortKey mode b ∨
        (sortKey mode a = sortKey mode b ∧ a.1 < b.1)) := by
  have hpw := pairwise_buildMap_aux (fun a b : Nat × Star => a.1 < b.1) (sortKey mode)
    recs [] List.Pairwise.nil (by simp) hinc
  unfold orderStars
  rw [List.pairwise_map]
  refine hpw.imp_of_mem ?_
  intro x y hx hy hxy
  have hkx := mem_buildMap_aux (sortKey mode) recs [] x hx
  have hky := mem_buildMap_aux (sortKey mode) recs [] y hy
  rcases hkx with hkx | ⟨hkx, _⟩
  · cases hkx
  rcases hky with hky | ⟨hky, _⟩
  · cases hky
  rcases hxy with h1 | ⟨h1, h2⟩
  · exact Or.inl (by rw [← hkx, ← hky]; exact h1)
  · exact Or.inr ⟨by rw [← hkx, ← hky]; exact h1, h2⟩

/-- C7: the `ByMagnitude` and `ByRightAscension` policies are total and
stable — the output is totally ordered by ascending sort key (the int16
magnitude for `-m`, the IEEE-754 order of the right-ascension bits for
`-r`), any two surviving records with equal keys keep their original
record-index order, and the `None` policy returns the surviving records
exactly in original record-index order. -/
theorem c7_ordering_total_stable (recs : List (Nat × Star))
    (hinc : recs.Pairwise (fun a b => a.1 < b.1)) :
    (orderStars recs SortMode.MAG).Pairwise
      (fun a b => a.2.mag < b.2.mag ∨ (a.2.mag = b.2.mag ∧ a.1 < b.1)) ∧
    (orderStars recs SortMode.RA).Pairwise
      (fun a b => f64OrderKey a.2.raBits < f64OrderKey b.2.raBits ∨
        (f64OrderKey a.2.raBits = f64OrderKey b.2.raBits ∧ a.1 < b.1)) ∧
    orderStars recs SortMode.NO = recs := by
  refine ⟨orderStars_sorted_stable recs SortMode.MAG hinc,
    orderStars_sorted_stable recs SortMode.RA hinc, ?_⟩
  unfold orderStars buildMap
  rw [buildMap_increasing_aux (sortKey SortMode.NO) recs [] (by simp)
    (hinc.imp (fun hab => by simp only [sortKey]; omega))]
  simp only [List.nil_append]
  induction recs with
  | nil => rfl
  | cons a t ih => simpa using ih (hinc.sublist (List.sublist_cons_self a t))

/-- C7 witness: two records with equal magnitudes stay in original order
under `-m`, distinct right ascensions are sorted ascending under `-r`,
and `None` keeps the original order. -/
theorem c7_witness :
    (Sidus.orderStars
      [(0, { name := [], raBits := 7, declBits := 0, starIdBits := 0, mag := 300,
             pmRaBits := 0, pmDeclBits := 0, radialVelocityBits := 0,
             spectralType0 := 65, spectralType1 := 66 }),
       (1, { name := [], raBits := 3, declBits := 0, starIdBits := 0, mag := 300,
             pmRaBits := 0, pmDeclBits := 0, radialVelocityBits := 0,
             spectralType0 := 67, spectralType1 := 68 })] SortMode.MAG).Pairwise
      (fun a b => a.2.mag < b.2.mag ∨ (a.2.mag = b.2.mag ∧ a.1 < b.1)) ∧
    (Sidus.orderStars
      [(0, { name := [], raBits := 7, declBits := 0, starIdBits := 0, mag := 300,
             pmRaBits := 0, pmDeclBits := 0, radialVelocityBits := 0,
             spectralType0 := 65, spectralType1 := 66 }),
       (1, { name := [], raBits := 3, declBits := 0, starIdBits := 0, mag := 300,
             pmRaBits := 0, pmDeclBits := 0, radialVelocityBits := 0,
             spectralType0 := 67, spectralType1 := 68 })] SortMode.RA).Pairwise
      (fun a b => f64OrderKey a.2.raBits < f64OrderKey b.2.raBits ∨
        (f64OrderKey a.2.raBits = f64OrderKey b.2.raBits ∧ a.1 < b.1)) ∧
    Sidus.orderStars
      [(0, { name := [], raBits := 7, declBits := 0, starIdBits := 0, mag := 300,
             pmRaBits := 0, pmDeclBits := 0, radialVelocityBits := 0,
             spectralType0 := 65, spectralType1 := 66 }),
       (1, { name := [], raBits := 3, declBits := 0, starIdBits := 0, mag := 300,
             pmRaBits := 0, pmDeclBits := 0, radialVelocityBits := 0,
             spectralType0 := 67, spectralType1 := 68 })] SortMode.NO =
      [(0, { name := [], raBits := 7, declBits := 0, starIdBits := 0, mag := 300,
             pmRaBits := 0, pmDeclBits := 0, radialVelocityBits := 0,
             spectralType0 := 65, spectralType1 := 66 }),
       (1, { name := [], raBits := 3, declBits := 0, starIdBits := 0, mag := 300,
             pmRaBits := 0, pmDeclBits := 0, radialVelocityBits := 0,
             spectralType0 := 67, spectralType1 := 68 })] :=
  c7_ordering_total_stable _ (by decide)

/-- C6: no record whose magnitude field is zero and whose right-ascension
and declination bit patterns both denote IEEE-754 zero survives the
pipeline, whatever the filter threshold and ordering policy. -/
theorem c6_all_zero_never_output (h : Header) (data : List Nat) (q : ℚ)
    (mode : SortMode) (p : Nat × Star) (hp : p ∈ pipelineStars h data q mode) :
    allZeroStar p.2 = false := by
  unfold pipelineStars orderStars at hp
  rw [List.mem_map] at hp
  obtain ⟨x, hx, rfl⟩ := hp
  rcases mem_buildMap_aux (sortKey mode) _ [] x hx with h2 | ⟨_, h2⟩
  · cases h2
  · rw [List.mem_filter] at h2
    have hk := h2.2
    unfold keepStar at hk
    rw [Bool.and_eq_true] at hk
    have := hk.2
    rwa [Bool.not_eq_true'] at this

/-- C6 witness: the record of the concrete catalog used for C1 (magnitude
200, nonzero coordinates) does survive, and is indeed not all-zero. -/
theorem c6_witness :
    allZeroStar
      { name := [], raBits := 1, declBits := 1, starIdBits := 0, mag := 200,
        pmRaBits := 0, pmDeclBits := 0, radialVelocityBits := 0,
        spectralType0 := 65, spectralType1 := 66 } = false :=
  c6_all_zero_never_output
    { numStars := 1, starId := 0, starNameLength := 0, properMotion := 0,
      numMagnitudes := 2, apparentMagnitude := 1, numBytesPerStar := 22,
      epoch := Epoch.B1950, littleEndian := true }
    (mkHeader true 1 0 0 2 22 ++ [1, 0, 0, 0, 0, 0, 0, 0] ++
      [1, 0, 0, 0, 0, 0, 0, 0] ++ [65, 66] ++ [100, 0] ++ [200, 0])
    1000000 SortMode.NO
    (0, { name := [], raBits := 1, declBits := 1, starIdBits := 0, mag := 200,
          pmRaBits := 0, pmDeclBits := 0, radialVelocityBits := 0,
          spectralType0 := 65, spectralType1 := 66 })
    (by decide)

/-! ## Whole-run error handling (claims C5, C10) -/

theorem parseHeader_bounds (data : List Nat) (e : Epoch) (en : Endian) (h : Header)
    (hok : parseHeader data e en = Except.ok h) :
    0 ≤ h.numStars ∧ h.numStars ≤ 2 ^ 31 ∧
    -(2 ^ 31) ≤ h.numBytesPerStar ∧ h.numBytesPerStar < 2 ^ 31 := by
  unfold parseHeader at hok
  cases hd : detectEndian data en with
  | error e2 => rw [hd] at hok; cases hok
  | ok le =>
    rw [hd] at hok
    dsimp only at hok
    by_cases h1 : e = Epoch.J2000 ∧ ¬(readI32 data 8 le < 0 ∨ readI32 data 20 le < 0)
    · rw [if_pos h1] at hok; cases hok
    · rw [if_neg h1] at hok
      by_cases h2 : e = Epoch.B1950 ∧ (readI32 data 8 le < 0 ∨ readI32 data 20 le < 0)
      · rw [if_pos h2] at hok; cases hok
      · rw [if_neg h2] at hok
        injection hok with hok
        subst hok
        have hb8 := readI32_bounds data 8 le
        have hb24 := readI32_bounds data 24 le
        refine ⟨?_, ?_, ?_, ?_⟩ <;> dsimp only <;> omega

/-- C5: the run is fatal whenever a header invariant is violated — fewer
than 28 bytes in the buffer (TruncatedInput, with the `empty` variant for
a zero-length file), a declared record region
`28 + numStars * numBytesPerStar` exceeding the buffer size
(TruncatedInput, "file too short"), or fewer than one magnitude per star
(TooFewMagnitudes) — and no record output is produced. -/
theorem c5_invariant_violation_fatal (data : List Nat) (o : RunOpts) :
    (data.length < 28 →
      sidusRun data o =
        Except.error (if data.length = 0 then "sidus: empty" else "sidus: no header")) ∧
    (∀ h, parseHeader data o.epochHint o.endianHint = Except.ok h →
      28 ≤ data.length →
      (data.length : Int) < 28 + h.numStars * h.numBytesPerStar →
      sidusRun data o = Except.error "sidus: file too short") ∧
    (∀ h, parseHeader data o.epochHint o.endianHint = Except.ok h →
      h.numMagnitudes < 1 →
      ∃ e, sidusRun data o = Except.error e) := by
  refine ⟨?_, ?_, ?_⟩
  · intro hlt
    unfold sidusRun
    by_cases h0 : data.length = 0
    · rw [if_pos h0, if_pos h0]
    · rw [if_neg h0, if_pos hlt, if_neg h0]
  · intro h hok hge hlt
    have hb := parseHeader_bounds data o.epochHint o.endianHint h hok
    have hbound : h.numStars * h.numBytesPerStar ≤ 2 ^ 31 * 2 ^ 31 :=
      calc h.numStars * h.numBytesPerStar ≤ h.numStars * 2 ^ 31 :=
            mul_le_mul_of_nonneg_left (by omega) hb.1
        _ ≤ 2 ^ 31 * 2 ^ 31 := mul_le_mul_of_nonneg_right hb.2.1 (by norm_num)
    have hlen : (0 : Int) ≤ (data.length : Int) := by positivity
    unfold sidusRun
    rw [if_neg (by omega), if_neg (by omega), hok]
    dsimp only
    rw [Int.emod_eq_of_lt (by omega) (by omega), if_pos hlt]
  · intro h hok hmag
    by_cases h0 : data.length = 0
    · exact ⟨"sidus: empty", by unfold sidusRun; rw [if_pos h0]⟩
    by_cases h28 : data.length < 28
    · exact ⟨"sidus: no header", by unfold sidusRun; rw [if_neg h0, if_pos h28]⟩
    by_cases hsz :
      (data.length : Int) < (28 + h.numStars * h.numBytesPerStar) % (2 ^ 64 : Int)
    · refine ⟨"sidus: file too short", ?_⟩
      unfold sidusRun
      rw [if_neg h0, if_neg h28, hok]
      dsimp only
      rw [if_pos hsz]
    · refine ⟨"sidus: expected at least one magnitude per star", ?_⟩
      unfold sidusRun
      rw [if_neg h0, if_neg h28, hok]
      dsimp only
      rw [if_neg hsz, if_pos hmag]

/-- C5 witness: a 3-byte buffer is rejected as having no header; a header
declaring 2 records of 20 bytes over a 48-byte file is rejected as too
short; a header declaring zero magnitudes is rejected fatally. -/
theorem c5_witness :
    sidusRun [1, 2, 3]
      { apparentMagnitude := 0, filterMagnitude := 0, epochHint := Epoch.AUTO,
        endianHint := Endian.AUTO, cformat := false, usefloat := false,
        onlymeta := false, sortMode := SortMode.NO, usename := false,
        usetype := false } = Except.error "sidus: no header" ∧
    sidusRun (mkHeader true 2 0 0 1 20 ++ List.replicate 20 0)
      { apparentMagnitude := 0, filterMagnitude := 0, epochHint := Epoch.AUTO,
        endianHint := Endian.AUTO, cformat := false, usefloat := false,
        onlymeta := false, sortMode := SortMode.NO, usename := false,
        usetype := false } = Except.error "sidus: file too short" ∧
    (∃ e, sidusRun (mkHeader true 0 0 0 0 20)
      { apparentMagnitude := 0, filterMagnitude := 0, epochHint := Epoch.AUTO,
        endianHint := Endian.AUTO, cformat := false, usefloat := false,
        onlymeta := false, sortMode := SortMode.NO, usename := false,
        usetype := false } = Except.error e) := by
  refine ⟨?_, ?_, ?_⟩
  · have h := (c5_invariant_violation_fatal [1, 2, 3]
      { apparentMagnitude := 0, filterMagnitude := 0, epochHint := Epoch.AUTO,
        endianHint := Endian.AUTO, cformat := false, usefloat := false,
        onlymeta := false, sortMode := SortMode.NO, usename := false,
        usetype := false }).1 (by decide)
    simpa using h
  · exact (c5_invariant_violation_fatal (mkHeader true 2 0 0 1 20 ++ List.replicate 20 0)
      { apparentMagnitude := 0, filterMagnitude := 0, epochHint := Epoch.AUTO,
        endianHint := Endian.AUTO, cformat := false, usefloat := false,
        onlymeta := false, sortMode := SortMode.NO, usename := false,
        usetype := false }).2.1
      { numStars := 2, starId := 0, starNameLength := 0, properMotion := 0,
        numMagnitudes := 1, apparentMagnitude := 0, numBytesPerStar := 20,
        epoch := Epoch.B1950, littleEndian := true }
      (by rfl) (by decide) (by decide)
  · exact (c5_invariant_violation_fatal (mkHeader true 0 0 0 0 20)
      { apparentMagnitude := 0, filterMagnitude := 0, epochHint := Epoch.AUTO,
        endianHint := Endian.AUTO, cformat := false, usefloat := false,
        onlymeta := false, sortMode := SortMode.NO, usename := false,
        usetype := false }).2.2
      { numStars := 0, starId := 0, starNameLength := 0, properMotion := 0,
        numMagnitudes := 0, apparentMagnitude := 0, numBytesPerStar := 20,
        epoch := Epoch.B1950, littleEndian := true }
      (by rfl) (by decide)

theorem printFields_all_no_name (s : Star) (cf ut : Bool) :
    (printFields s cf false ut).all (fun f => !(isNameField f)) = true := by
  unfold printFields
  cases cf <;> cases ut <;> simp [isNameField]

/-- C10: for a catalog whose decoded header has `starNameLength = 0` (the
catalog carries ids rather than names), `main` clears the include-name
option after header decoding, so no serialized output line ever contains a
name field, even when the caller requested names. -/
theorem c10_name_column_suppressed (data : List Nat) (o : RunOpts) (h : Header)
    (lines : List (List OutField))
    (hph : parseHeader data o.epochHint o.endianHint = Except.ok h)
    (hnl : h.starNameLength = 0)
    (hrun : sidusRun data o = Except.ok (RunOutput.records lines)) :
    lines.all (fun line => line.all (fun f => !(isNameField f))) = true := by
  unfold sidusRun at hrun
  by_cases h0 : data.length = 0
  · rw [if_pos h0] at hrun; cases hrun
  rw [if_neg h0] at hrun
  by_cases h28 : data.length < 28
  · rw [if_pos h28] at hrun; cases hrun
  rw [if_neg h28, hph] at hrun
  dsimp only at hrun
  by_cases hsz :
    (data.length : Int) < (28 + h.numStars * h.numBytesPerStar) % (2 ^ 64 : Int)
  · rw [if_pos hsz] at hrun; cases hrun
  rw [if_neg hsz] at hrun
  by_cases hm : h.numMagnitudes < 1
  · rw [if_pos hm] at hrun; cases hrun
  rw [if_neg hm] at hrun
  by_cases hmeta : o.onlymeta = true
  · rw [if_pos hmeta] at hrun; cases hrun
  rw [if_neg hmeta, hnl, if_pos rfl] at hrun
  injection hrun with hrun
  injection hrun with hrun
  subst hrun
  rw [List.all_eq_true]
  intro line hline
  rw [List.mem_map] at hline
  obtain ⟨p, _, rfl⟩ := hline
  exact printFields_all_no_name p.2 o.cformat o.usetype

/-- C10 witness: a catalog with `CATALOG_STAR_ID` identifiers (so
`starNameLength = 0`) run with the include-name option requested: the
single output line carries no name field. -/
theorem c10_witness :
    ([[OutField.raF 1, OutField.decF 1, OutField.magF 100]] : List (List OutField)).all
      (fun line => line.all (fun f => !(isNameField f))) = true :=
  c10_name_column_suppressed
    (mkHeader true 1 1 0 1 24 ++ [1, 0, 0, 0] ++ [1, 0, 0, 0, 0, 0, 0, 0] ++
      [1, 0, 0, 0, 0, 0, 0, 0] ++ [65, 66] ++ [100, 0])
    { apparentMagnitude := 0, filterMagnitude := 1000000, epochHint := Epoch.AUTO,
      endianHint := Endian.AUTO, cformat := false, usefloat := false,
      onlymeta := false, sortMode := SortMode.NO, usename := true,
      usetype := false }
    { numStars := 1, starId := 1, starNameLength := 0, properMotion := 0,
      numMagnitudes := 1, apparentMagnitude := 0, numBytesPerStar := 24,
      epoch := Epoch.B1950, littleEndian := true }
    [[OutField.raF 1, OutField.decF 1, OutField.magF 100]]
    (by rfl) (by rfl) (by decide)

end Sidus
